import Mathlib

/-!
Verification of the cache-aside page-view counter of `src/web-app/server.js`
(the `app.get('/')` handler, called `recordView()` in the specification).

The handler's external effects, in program order, are:
  1. `redisClient.get('page_views_total')`               (cache read)
  2. on a miss: `SELECT count FROM visitor_count WHERE id = 1`   (store read),
     then `redisClient.setEx('page_views_total', 60, v.toString())` (cache write)
  3. `UPDATE visitor_count SET count = count + 1 WHERE id = 1`   (store write)
  4. `redisClient.del('page_views_total')`               (cache delete)
  5. `res.render('index', { totalViews: parseInt(totalViews) + 1, ... })`
Any thrown error is caught by the surrounding try/catch and answered with
`res.status(500).send('Serverfehler')`.

We embed the handler as a pure function over an explicit state (the Redis
entry under the key and the MySQL singleton row), parameterised by a fault
schedule saying which of the five external operations throws.  The function
also returns the trace of external operations that actually executed, so
that claims about intermediate cache writes and the final `DEL` can be
stated.  The session counter (`req.session.views`) is independent of the
page-view counter and of every claim, so it is not part of the state.

JavaScript faithfulness notes:
  * the cache stores decimal strings; `if (!totalViews)` treats `null` as a
    miss and every stored string (all nonempty, including "0") as a hit, so
    the cache is modelled as `Option Nat`;
  * `rows[0]?.count || 0` yields the row's count when the row exists
    (`0 || 0 = 0` for a zero count) and `0` when it is absent, i.e.
    `Option.getD · 0`;
  * `UPDATE ... WHERE id = 1` increments the row when present and does
    nothing when the row is absent, i.e. `Option.map (· + 1)`.
-/

/-- A Redis entry for the page-view key: the cached numeric value and the
TTL it was written with. An entry that has expired is simply absent from
the state, exactly as an expired key is absent from Redis. -/
structure CacheEntry where
  value : Nat
  ttl : Nat
  deriving DecidableEq, Repr

/-- The shared state seen by the handler: the cache entry under
`page_views_total` (none = missing or expired) and the `visitor_count`
row with `id = 1` (none = row missing). -/
structure St where
  cache : Option CacheEntry
  store : Option Nat
  deriving DecidableEq, Repr

/-- Which of the handler's five external operations throws.  A `true`
field makes the corresponding await reject, which the try/catch turns
into a 500 response. -/
structure Faults where
  cacheGetFails : Bool
  storeSelectFails : Bool
  cacheSetExFails : Bool
  storeUpdateFails : Bool
  cacheDelFails : Bool
  deriving DecidableEq, Repr

/-- The fault schedule of a normal run: every external operation succeeds. -/
def noFaults : Faults := ⟨false, false, false, false, false⟩

/-- The HTTP outcome of the handler: a rendered page carrying the displayed
total, or the 500 'Serverfehler' answer of the catch block. -/
inductive Response where
  | render (totalViews : Nat)
  | serverError
  deriving DecidableEq, Repr

/-- One executed external operation, with the data it observed or wrote. -/
inductive Event where
  | cacheGet (result : Option Nat)
  | storeSelect (result : Option Nat)
  | cacheSetEx (key : String) (ttl : Nat) (value : Nat)
  | storeUpdate
  | cacheDel (key : String)
  deriving DecidableEq, Repr

/-- The Redis key used by the handler (`server.js` line 145). -/
def cacheKey : String := "page_views_total"

/-- The tail of the handler shared by the hit and miss paths
(`server.js` lines 159-171): increment the store row, delete the cache
entry, render `totalViews + 1`. -/
def finishView (f : Faults) (s : St) (evs : List Event) (totalViews : Nat) :
    Response × St × List Event :=
  if f.storeUpdateFails then (Response.serverError, s, evs)
  else
    let s2 : St := { s with store := s.store.map (fun c => c + 1) }
    let evs2 := evs ++ [Event.storeUpdate]
    if f.cacheDelFails then (Response.serverError, s2, evs2)
    else
      (Response.render (totalViews + 1), { s2 with cache := none },
        evs2 ++ [Event.cacheDel cacheKey])

/-- The `app.get('/')` handler (`server.js` lines 135-176): read the cache;
on a miss read the store (defaulting to 0) and repopulate the cache with a
60 second TTL; then increment the store, delete the cache entry and render
the read value plus one.  Any failing operation aborts the rest and
answers 500. -/
def recordView (f : Faults) (s : St) : Response × St × List Event :=
  if f.cacheGetFails then (Response.serverError, s, [])
  else
    match s.cache with
    | some entry =>
        finishView f s [Event.cacheGet (some entry.value)] entry.value
    | none =>
        if f.storeSelectFails then
          (Response.serverError, s, [Event.cacheGet none])
        else
          let totalViews := s.store.getD 0
          let evs1 := [Event.cacheGet none, Event.storeSelect s.store]
          if f.cacheSetExFails then (Response.serverError, s, evs1)
          else
            finishView f { s with cache := some ⟨totalViews, 60⟩ }
              (evs1 ++ [Event.cacheSetEx cacheKey 60 totalViews]) totalViews

/-- Claim C2: with the cache empty and the store holding 7, the fault-free
handler renders 8, its trace shows the value 7 being written into the cache
(with TTL 60) and the entry being deleted before the response, and the final
state has the store at 8 with the cache entry absent. -/
theorem recordView_from_seven :
    recordView noFaults ⟨none, some 7⟩ =
      (Response.render 8, ⟨none, some 8⟩,
        [Event.cacheGet none, Event.storeSelect (some 7),
         Event.cacheSetEx cacheKey 60 7, Event.storeUpdate,
         Event.cacheDel cacheKey]) := by
  rfl

/-- Run `n` consecutive fault-free handler calls, threading the state and
collecting the responses in order. -/
def runSeq : Nat → St → List Response × St
  | 0, s => ([], s)
  | Nat.succ n, s =>
      let r := recordView noFaults s
      let rest := runSeq n r.2.1
      (r.1 :: rest.1, rest.2)

/-- One fault-free call from an empty cache and a store holding `c`
renders `c + 1` and leaves the cache empty and the store at `c + 1`. -/
theorem recordView_step (c : Nat) :
    recordView noFaults ⟨none, some c⟩ =
      (Response.render (c + 1), ⟨none, some (c + 1)⟩,
        [Event.cacheGet none, Event.storeSelect (some c),
         Event.cacheSetEx cacheKey 60 c, Event.storeUpdate,
         Event.cacheDel cacheKey]) := by
  rfl

/-- Claim C1: starting from an empty cache and a store holding `c`, the
responses of `n` sequential fault-free calls are exactly the renders of
`c+1, c+2, …, c+n`, and the store finishes at `c + n` — each call deletes
the cache entry, so the next call reads the freshly incremented store. -/
theorem runSeq_renders (n c : Nat) :
    (runSeq n ⟨none, some c⟩).1 =
      (List.range n).map (fun i => Response.render (c + i + 1)) ∧
    (runSeq n ⟨none, some c⟩).2 = ⟨none, some (c + n)⟩ := by
  induction n generalizing c with
  | zero => simp [runSeq]
  | succ n ih =>
      obtain ⟨ih1, ih2⟩ := ih (c + 1)
      constructor
      · show Response.render (c + 1) :: (runSeq n ⟨none, some (c + 1)⟩).1 = _
        rw [ih1, List.range_succ_eq_map, List.map_cons, List.map_map]
        refine congrArg₂ _ (by simp) (List.map_congr_left ?_)
        intro a _
        simp [Function.comp]
        omega
      · show (runSeq n ⟨none, some (c + 1)⟩).2 = _
        rw [ih2]
        simp [St.mk.injEq]
        omega

/-- Claim C3: on a cache hit the handler renders the cached value plus one,
whatever count `c` the store currently holds, and the store row is still
incremented by exactly one. -/
theorem recordView_cache_hit (v t c : Nat) :
    (recordView noFaults ⟨some ⟨v, t⟩, some c⟩).1 = Response.render (v + 1) ∧
    (recordView noFaults ⟨some ⟨v, t⟩, some c⟩).2.1.store = some (c + 1) := by
  exact ⟨rfl, rfl⟩

/-- Claim C4: whenever the handler answers with a rendered page (it did not
hit the catch block), the final cache state has no entry under
`page_views_total`: the unconditional `DEL` is the last cache operation. -/
theorem recordView_success_cache_absent (f : Faults) (s : St) (v : Nat)
    (h : (recordView f s).1 = Response.render v) :
    (recordView f s).2.1.cache = none := by
  obtain ⟨g, sel, se, u, d⟩ := f
  obtain ⟨cc, st⟩ := s
  cases g <;> cases sel <;> cases se <;> cases u <;> cases d <;>
    cases cc <;> simp_all [recordView, finishView]

/-- Witness for C4 at a concrete successful call. -/
theorem recordView_success_cache_absent_witness :
    (recordView noFaults ⟨none, some 0⟩).2.1.cache = none :=
  recordView_success_cache_absent noFaults ⟨none, some 0⟩ 1 rfl

/-- Counterexample to claim C6 as stated: with the cache unreachable (the
initial `redisClient.get` throws), the request does not succeed — the
handler answers 500 'Serverfehler' and neither store operation runs. -/
theorem recordView_cache_down_fails :
    recordView ⟨true, false, false, false, false⟩ ⟨none, some 0⟩ =
      (Response.serverError, ⟨none, some 0⟩, []) := by
  rfl

/-- Claim C6 amended: a cache outage is fatal in this implementation — if
the initial cache read throws, every call answers 500 'Serverfehler'; the
code has no store-only fallback path. -/
theorem recordView_cache_down_always_fails (f : Faults) (s : St)
    (h : f.cacheGetFails = true) :
    (recordView f s).1 = Response.serverError := by
  simp [recordView, h]

/-- Witness for the amended C6 at a concrete input. -/
theorem recordView_cache_down_always_fails_witness :
    (recordView ⟨true, true, true, true, true⟩ ⟨none, some 5⟩).1 =
      Response.serverError :=
  recordView_cache_down_always_fails ⟨true, true, true, true, true⟩
    ⟨none, some 5⟩ rfl

/-- Claim C7: on a cache miss the fault-free handler reads the store row
(observing `st`), writes the read count — `st.getD 0`, so 0 when the row
is missing — into the cache under `page_views_total` with TTL 60, and only
then increments and invalidates. -/
theorem recordView_miss_trace (st : Option Nat) :
    (recordView noFaults ⟨none, st⟩).2.2 =
      [Event.cacheGet none, Event.storeSelect st,
       Event.cacheSetEx cacheKey 60 (st.getD 0), Event.storeUpdate,
       Event.cacheDel cacheKey] := by
  cases st <;> rfl

/-- Replay only the cache effects of a trace on a cache state: `SETEX`
installs its value and TTL, `DEL` removes the entry, reads change nothing. -/
def cacheAfter (c : Option CacheEntry) : List Event → Option CacheEntry
  | [] => c
  | Event.cacheSetEx _ t v :: rest => cacheAfter (some ⟨v, t⟩) rest
  | Event.cacheDel _ :: rest => cacheAfter none rest
  | _ :: rest => cacheAfter c rest

/-- Claim C5: when the failure that aborts the handler is a store failure
(the `SELECT` on a miss, or the `UPDATE`), the caller gets the 500 answer,
the final `DEL` never executes, and the cache is left exactly as the
already-executed `GET`/`SETEX` operations left it. -/
theorem recordView_store_failure (f : Faults) (s : St)
    (hg : f.cacheGetFails = false) (hse : f.cacheSetExFails = false)
    (h : (s.cache = none ∧ f.storeSelectFails = true) ∨
      f.storeUpdateFails = true) :
    (recordView f s).1 = Response.serverError ∧
    Event.cacheDel cacheKey ∉ (recordView f s).2.2 ∧
    (recordView f s).2.1.cache = cacheAfter s.cache (recordView f s).2.2 := by
  obtain ⟨g, sel, se, u, d⟩ := f
  obtain ⟨cc, st⟩ := s
  simp only at hg hse
  subst hg hse
  cases sel <;> cases u <;> cases d <;> cases cc <;>
    simp_all [recordView, finishView, cacheAfter]

/-- Witness for C5: the `UPDATE` fails after a miss repopulated the cache;
the 500 answer is returned, no `DEL` appears in the trace, and the cache
still holds the `SETEX` result. -/
theorem recordView_store_failure_witness :
    (recordView ⟨false, false, false, true, false⟩ ⟨none, some 7⟩).1 =
        Response.serverError ∧
      Event.cacheDel cacheKey ∉
        (recordView ⟨false, false, false, true, false⟩ ⟨none, some 7⟩).2.2 ∧
      (recordView ⟨false, false, false, true, false⟩ ⟨none, some 7⟩).2.1.cache =
        cacheAfter (none : Option CacheEntry)
          (recordView ⟨false, false, false, true, false⟩ ⟨none, some 7⟩).2.2 :=
  recordView_store_failure ⟨false, false, false, true, false⟩ ⟨none, some 7⟩
    rfl rfl (Or.inr rfl)

/-- Claim C8: under every fault schedule and every starting state, the
handler never decreases the stored count — the only store mutation in the
code is `UPDATE visitor_count SET count = count + 1`. -/
theorem recordView_store_monotone (f : Faults) (s : St) :
    s.store.getD 0 ≤ (recordView f s).2.1.store.getD 0 := by
  obtain ⟨g, sel, se, u, d⟩ := f
  obtain ⟨cc, st⟩ := s
  cases g <;> cases sel <;> cases se <;> cases u <;> cases d <;>
    cases cc <;> cases st <;> simp [recordView, finishView]

/-- Claim C10: if everything up to and including the store increment
succeeds but the final cache `DEL` throws, the caller receives the 500
answer while the store nevertheless keeps the incremented count — the
durable mutation is not rolled back. -/
theorem recordView_del_failure (f : Faults) (s : St) (c : Nat)
    (hg : f.cacheGetFails = false) (hsel : f.storeSelectFails = false)
    (hse : f.cacheSetExFails = false) (hu : f.storeUpdateFails = false)
    (hd : f.cacheDelFails = true) (hst : s.store = some c) :
    (recordView f s).1 = Response.serverError ∧
    (recordView f s).2.1.store = some (c + 1) := by
  obtain ⟨g, sel, se, u, d⟩ := f
  obtain ⟨cc, st⟩ := s
  simp only at hg hsel hse hu hd hst
  subst hg hsel hse hu hd hst
  cases cc <;> simp [recordView, finishView]

/-- Witness for C10 at a concrete input. -/
theorem recordView_del_failure_witness :
    (recordView ⟨false, false, false, false, true⟩ ⟨none, some 3⟩).1 =
        Response.serverError ∧
      (recordView ⟨false, false, false, false, true⟩ ⟨none, some 3⟩).2.1.store =
        some 4 :=
  recordView_del_failure ⟨false, false, false, false, true⟩ ⟨none, some 3⟩ 3
    rfl rfl rfl rfl rfl rfl

/-- Number of store increments (`UPDATE ... SET count = count + 1`
executions) in a trace. -/
def countUpdates : List Event → Nat
  | [] => 0
  | Event.storeUpdate :: rest => countUpdates rest + 1
  | _ :: rest => countUpdates rest

/-- Effect of one executed operation on the durable count alone: the
`UPDATE` is a single atomic read-modify-write expression, every other
operation leaves the count unchanged. -/
def applyStore (n : Nat) : Event → Nat
  | Event.storeUpdate => n + 1
  | _ => n

/-- `Interleave xs ys zs`: `zs` is an interleaving of `xs` and `ys`
(each kept in its own order). -/
inductive Interleave : List Event → List Event → List Event → Prop where
  | nil : Interleave [] [] []
  | left : ∀ {e xs ys zs}, Interleave xs ys zs → Interleave (e :: xs) ys (e :: zs)
  | right : ∀ {e xs ys zs}, Interleave xs ys zs → Interleave xs (e :: ys) (e :: zs)

/-- `InterleaveAll ts σ`: `σ` is a concurrent schedule of the request
traces `ts`, each request's operations kept in program order. -/
inductive InterleaveAll : List (List Event) → List Event → Prop where
  | nil : InterleaveAll [] []
  | cons : ∀ {t ts τ σ}, Interleave t τ σ → InterleaveAll ts τ →
      InterleaveAll (t :: ts) σ

/-- Replaying a schedule against the durable count adds one per executed
`UPDATE`. -/
theorem foldl_applyStore (evs : List Event) (n : Nat) :
    List.foldl applyStore n evs = n + countUpdates evs := by
  induction evs generalizing n with
  | nil => simp [countUpdates]
  | cons e rest ih =>
      cases e <;> simp [List.foldl, applyStore, countUpdates, ih] <;> omega

/-- Interleaving two traces preserves the total number of `UPDATE`s. -/
theorem interleave_countUpdates {xs ys zs : List Event}
    (h : Interleave xs ys zs) :
    countUpdates zs = countUpdates xs + countUpdates ys := by
  induction h with
  | nil => rfl
  | left h ih =>
      rename_i e _ _ _
      cases e <;> simp [countUpdates, ih] <;> omega
  | right h ih =>
      rename_i e _ _ _
      cases e <;> simp [countUpdates, ih] <;> omega

/-- A schedule of many traces preserves the total number of `UPDATE`s. -/
theorem interleaveAll_countUpdates {ts : List (List Event)} {σ : List Event}
    (h : InterleaveAll ts σ) :
    countUpdates σ = (ts.map countUpdates).sum := by
  induction h with
  | nil => rfl
  | cons hi _ ih =>
      simp [List.map, List.sum_cons, interleave_countUpdates hi, ih]

/-- Every fault-free handler call executes the store `UPDATE` exactly
once, whatever state it observes. -/
theorem recordView_one_update (s : St) :
    countUpdates (recordView noFaults s).2.2 = 1 := by
  obtain ⟨cc, st⟩ := s
  cases cc <;> rfl

/-- A list of traces with one `UPDATE` each has as many `UPDATE`s as
traces. -/
theorem sum_countUpdates (ts : List (List Event))
    (h : ∀ t ∈ ts, countUpdates t = 1) :
    (ts.map countUpdates).sum = ts.length := by
  induction ts with
  | nil => rfl
  | cons t ts ih =>
      have h1 : countUpdates t = 1 := h t (by simp)
      simp only [List.map, List.sum_cons, List.length_cons, h1]
      rw [ih (fun u hu => h u (by simp [hu]))]
      omega

/-- Claim C9: for any number of concurrent fault-free handler calls — each
contributing its trace, scheduled in any interleaving that keeps each
request's operations in order — replaying the schedule against a store
starting at 0 leaves the count at exactly the number of requests: the
atomic `UPDATE` loses no increment, even though displayed totals may
repeat. -/
theorem recordView_concurrent_total (ts : List (List Event)) (σ : List Event)
    (hts : ∀ t ∈ ts, ∃ s, t = (recordView noFaults s).2.2)
    (hσ : InterleaveAll ts σ) :
    List.foldl applyStore 0 σ = ts.length := by
  rw [foldl_applyStore, interleaveAll_countUpdates hσ, Nat.zero_add]
  refine sum_countUpdates ts (fun t ht => ?_)
  obtain ⟨s, hs⟩ := hts t ht
  rw [hs, recordView_one_update]

/-- `ys` interleaved with nothing on the left is `ys` itself. -/
theorem interleave_nil_left (ys : List Event) : Interleave [] ys ys := by
  induction ys with
  | nil => exact Interleave.nil
  | cons e ys ih => exact Interleave.right ih

/-- Running one trace to completion before the other is one legal
interleaving. -/
theorem interleave_append (xs ys : List Event) :
    Interleave xs ys (xs ++ ys) := by
  induction xs with
  | nil => simpa using interleave_nil_left ys
  | cons e xs ih => exact Interleave.left ih

/-- A trace interleaved with nothing on the right is itself. -/
theorem interleave_nil_right (xs : List Event) : Interleave xs [] xs := by
  induction xs with
  | nil => exact Interleave.nil
  | cons e xs ih => exact Interleave.left ih

/-- Witness for C9: two concurrent calls — one that misses the cache and
one that hits it — scheduled back to back leave a store that started at 0
holding exactly 2. -/
theorem recordView_concurrent_total_witness :
    List.foldl applyStore 0
      ([Event.cacheGet none, Event.storeSelect (some 0),
        Event.cacheSetEx cacheKey 60 0, Event.storeUpdate,
        Event.cacheDel cacheKey] ++
       [Event.cacheGet (some 0), Event.storeUpdate,
        Event.cacheDel cacheKey]) = 2 := by
  have hts : ∀ t ∈ [[Event.cacheGet none, Event.storeSelect (some 0),
        Event.cacheSetEx cacheKey 60 0, Event.storeUpdate,
        Event.cacheDel cacheKey],
       [Event.cacheGet (some 0), Event.storeUpdate,
        Event.cacheDel cacheKey]],
      ∃ s, t = (recordView noFaults s).2.2 := by
    intro t ht
    simp only [List.mem_cons, List.not_mem_nil, or_false] at ht
    rcases ht with h | h
    · exact ⟨⟨none, some 0⟩, h.trans rfl⟩
    · exact ⟨⟨some ⟨0, 60⟩, some 0⟩, h.trans rfl⟩
  exact recordView_concurrent_total _ _ hts
    (InterleaveAll.cons (interleave_append _ _)
      (InterleaveAll.cons (interleave_nil_right _) InterleaveAll.nil))
